import Mathlib

/-!
Shallow embedding of the core of the `raytracer-challenge` repository
(ray-scene intersection engine and recursive shading pipeline), with the
machine floating-point type `f64` idealised as the real numbers `ℝ`.
Rust reference identity (`std::ptr::eq`) on scene objects is modelled by an
explicit arena identifier field `id`, following the porting note of the
design document (stable arena indices instead of pointer identity).
Definitions are translated from the Rust sources file by file; the cube slab
test, whose specified behaviour involves IEEE signed infinities, is embedded
separately over an extended value type `Fp` carrying infinities and NaN.
-/

noncomputable section

namespace RayTracer

/-- EPSILON constant from `lib.rs`: `pub const EPSILON: f64 = 0.0001`. -/
def EPSILON : ℝ := 0.0001

/-! ## Tuples (`tuple.rs`) -/

/-- Tuple from `tuple.rs`: x, y, z plus the homogeneous coordinate w
(1 for points, 0 for vectors). -/
structure Tuple where
  x : ℝ
  y : ℝ
  z : ℝ
  w : ℝ

/-- Constructor `Tuple::point`. -/
def Tuple.point (x y z : ℝ) : Tuple := ⟨x, y, z, 1⟩

/-- Constructor `Tuple::vector`. -/
def Tuple.vector (x y z : ℝ) : Tuple := ⟨x, y, z, 0⟩

/-- Predicate `Tuple::is_point`. -/
def Tuple.is_point (t : Tuple) : Prop := t.w = 1

/-- Predicate `Tuple::is_vector`. -/
def Tuple.is_vector (t : Tuple) : Prop := t.w = 0

/-- Componentwise addition, `impl Add for Tuple`. -/
instance : Add Tuple := ⟨fun a b => ⟨a.x + b.x, a.y + b.y, a.z + b.z, a.w + b.w⟩⟩

/-- Componentwise subtraction, `impl Sub for Tuple`. -/
instance : Sub Tuple := ⟨fun a b => ⟨a.x - b.x, a.y - b.y, a.z - b.z, a.w - b.w⟩⟩

/-- Componentwise negation, `impl Neg for Tuple`. -/
instance : Neg Tuple := ⟨fun a => ⟨-a.x, -a.y, -a.z, -a.w⟩⟩

/-- Scalar multiplication, `impl Mul<f64> for Tuple`. -/
instance : HMul Tuple ℝ Tuple := ⟨fun a s => ⟨a.x * s, a.y * s, a.z * s, a.w * s⟩⟩

/-- Scalar division, `impl Div<f64> for Tuple`. -/
instance : HDiv Tuple ℝ Tuple := ⟨fun a s => ⟨a.x / s, a.y / s, a.z / s, a.w / s⟩⟩

/-- Dot product from `tuple.rs`; it sums the x, y, z products only
(the homogeneous coordinate is ignored). -/
def Tuple.dot (a b : Tuple) : ℝ := a.x * b.x + a.y * b.y + a.z * b.z

/-- Magnitude from `tuple.rs`: square root of the sum of squares of x, y, z. -/
noncomputable def Tuple.magnitude (a : Tuple) : ℝ :=
  Real.sqrt (a.x * a.x + a.y * a.y + a.z * a.z)

/-- Normalisation from `tuple.rs`: the tuple divided by its magnitude. -/
noncomputable def Tuple.normalize (a : Tuple) : Tuple := a / a.magnitude

/-- Reflection from `tuple.rs`: `*self - *normal * 2. * self.dot(normal)`. -/
def Tuple.reflect (a normal : Tuple) : Tuple := a - normal * (2:ℝ) * a.dot normal

/-! ## Colors (`color.rs`) -/

/-- Color from `color.rs`: three floating components. -/
structure Color where
  red : ℝ
  green : ℝ
  blue : ℝ

/-- Componentwise addition, `impl Add for Color`. -/
instance : Add Color := ⟨fun a b => ⟨a.red + b.red, a.green + b.green, a.blue + b.blue⟩⟩

/-- Componentwise (Hadamard) product, `impl Mul for Color`. -/
instance : Mul Color := ⟨fun a b => ⟨a.red * b.red, a.green * b.green, a.blue * b.blue⟩⟩

/-- Scalar multiplication, `impl Mul<f64> for Color`. -/
instance : HMul Color ℝ Color := ⟨fun a s => ⟨a.red * s, a.green * s, a.blue * s⟩⟩

/-- Black constant. Modelled from the spec: the `BLACK` constant is imported
from `color.rs` by the shading code but its definition is absent from the
provided sources; the spec fixes it as the background color returned on a
miss, which `ray.rs` writes as `Color::new(0., 0., 0.)`. -/
def BLACK : Color := ⟨0, 0, 0⟩

/-- Margin of the derived float comparison used by `impl PartialEq for Color`:
`float_cmp::approx_eq!(f64, a, b)` with the default `F64Margin`, whose
epsilon component is the f64 machine epsilon `2⁻⁵²`. The ulps component of
that margin is a bit-representation detail with no meaning over `ℝ` and is
not modelled. -/
def F64_MACHINE_EPSILON : ℝ := (2:ℝ)⁻¹ ^ 52

/-- Approximate scalar equality within an absolute epsilon, the semantics of
`float_cmp::approx_eq!` with an `epsilon = e` margin. -/
def approxEq (e a b : ℝ) : Prop := |a - b| ≤ e

/-- Color equality from `impl PartialEq for Color`: componentwise approximate
equality with the default margin. -/
def colorEq (a b : Color) : Prop :=
  approxEq F64_MACHINE_EPSILON a.red b.red ∧
  approxEq F64_MACHINE_EPSILON a.green b.green ∧
  approxEq F64_MACHINE_EPSILON a.blue b.blue

/-! ## Matrices (`matrix.rs`, `transformations.rs`)

The core pipeline only ever builds and inverts 4×4 matrices (every shape
transform is a 4×4 affine matrix, and `Mul<Tuple>` asserts a 4-row result),
so the `Vec<Vec<f64>>` matrix is embedded as a record of its 16 entries and
`inverse` as the 4×4 fast path of `matrix.rs` (lines 116-217). -/

/-- Matrix of the 4×4 shape-transform kind, entry `mRC` being row R column C. -/
structure Matrix where
  m00 : ℝ
  m01 : ℝ
  m02 : ℝ
  m03 : ℝ
  m10 : ℝ
  m11 : ℝ
  m12 : ℝ
  m13 : ℝ
  m20 : ℝ
  m21 : ℝ
  m22 : ℝ
  m23 : ℝ
  m30 : ℝ
  m31 : ℝ
  m32 : ℝ
  m33 : ℝ

/-- Identity matrix, `Matrix::identity(4)`. -/
def Matrix.identityM : Matrix :=
  ⟨1, 0, 0, 0,
   0, 1, 0, 0,
   0, 0, 1, 0,
   0, 0, 0, 1⟩

/-- Transpose, `Matrix::transpose`. -/
def Matrix.transpose (m : Matrix) : Matrix :=
  ⟨m.m00, m.m10, m.m20, m.m30,
   m.m01, m.m11, m.m21, m.m31,
   m.m02, m.m12, m.m22, m.m32,
   m.m03, m.m13, m.m23, m.m33⟩

/-- Matrix-tuple product, `impl Mul<Tuple> for &Matrix` (the tuple is treated
as a 4×1 column). -/
def Matrix.mulTuple (m : Matrix) (t : Tuple) : Tuple :=
  ⟨m.m00 * t.x + m.m01 * t.y + m.m02 * t.z + m.m03 * t.w,
   m.m10 * t.x + m.m11 * t.y + m.m12 * t.z + m.m13 * t.w,
   m.m20 * t.x + m.m21 * t.y + m.m22 * t.z + m.m23 * t.w,
   m.m30 * t.x + m.m31 * t.y + m.m32 * t.z + m.m33 * t.w⟩

/-- Inverse of a 4×4 matrix, translated from the fast path of
`Matrix::inverse` in `matrix.rs` (the cofactor-based closed form). The
`is_invertible` assertion is a panic on (approximately) singular input; the
embedding is the pure closed form, which the pipeline only applies to
invertible shape transforms. -/
def Matrix.inverse (m : Matrix) : Matrix :=
  let a2323 := m.m22 * m.m33 - m.m23 * m.m32
  let a1323 := m.m21 * m.m33 - m.m23 * m.m31
  let a1223 := m.m21 * m.m32 - m.m22 * m.m31
  let a0323 := m.m20 * m.m33 - m.m23 * m.m30
  let a0223 := m.m20 * m.m32 - m.m22 * m.m30
  let a0123 := m.m20 * m.m31 - m.m21 * m.m30
  let a2313 := m.m12 * m.m33 - m.m13 * m.m32
  let a1313 := m.m11 * m.m33 - m.m13 * m.m31
  let a1213 := m.m11 * m.m32 - m.m12 * m.m31
  let a2312 := m.m12 * m.m23 - m.m13 * m.m22
  let a1312 := m.m11 * m.m23 - m.m13 * m.m21
  let a1212 := m.m11 * m.m22 - m.m12 * m.m21
  let a0313 := m.m10 * m.m33 - m.m13 * m.m30
  let a0213 := m.m10 * m.m32 - m.m12 * m.m30
  let a0312 := m.m10 * m.m23 - m.m13 * m.m20
  let a0212 := m.m10 * m.m22 - m.m12 * m.m20
  let a0113 := m.m10 * m.m31 - m.m11 * m.m30
  let a0112 := m.m10 * m.m21 - m.m11 * m.m20
  let det := m.m00 * (m.m11 * a2323 - m.m12 * a1323 + m.m13 * a1223)
    - m.m01 * (m.m10 * a2323 - m.m12 * a0323 + m.m13 * a0223)
    + m.m02 * (m.m10 * a1323 - m.m11 * a0323 + m.m13 * a0123)
    - m.m03 * (m.m10 * a1223 - m.m11 * a0223 + m.m12 * a0123)
  let d := 1 / det
  ⟨d * (m.m11 * a2323 - m.m12 * a1323 + m.m13 * a1223),
   d * -(m.m01 * a2323 - m.m02 * a1323 + m.m03 * a1223),
   d * (m.m01 * a2313 - m.m02 * a1313 + m.m03 * a1213),
   d * -(m.m01 * a2312 - m.m02 * a1312 + m.m03 * a1212),
   d * -(m.m10 * a2323 - m.m12 * a0323 + m.m13 * a0223),
   d * (m.m00 * a2323 - m.m02 * a0323 + m.m03 * a0223),
   d * -(m.m00 * a2313 - m.m02 * a0313 + m.m03 * a0213),
   d * (m.m00 * a2312 - m.m02 * a0312 + m.m03 * a0212),
   d * (m.m10 * a1323 - m.m11 * a0323 + m.m13 * a0123),
   d * -(m.m00 * a1323 - m.m01 * a0323 + m.m03 * a0123),
   d * (m.m00 * a1313 - m.m01 * a0313 + m.m03 * a0113),
   d * -(m.m00 * a1312 - m.m01 * a0312 + m.m03 * a0112),
   d * -(m.m10 * a1223 - m.m11 * a0223 + m.m12 * a0123),
   d * (m.m00 * a1223 - m.m01 * a0223 + m.m02 * a0123),
   d * -(m.m00 * a1213 - m.m01 * a0213 + m.m02 * a0113),
   d * (m.m00 * a1212 - m.m01 * a0212 + m.m02 * a0112)⟩

/-- Translation matrix from `transformations.rs`. -/
def Matrix.translation (x y z : ℝ) : Matrix :=
  ⟨1, 0, 0, x,
   0, 1, 0, y,
   0, 0, 1, z,
   0, 0, 0, 1⟩

/-- Scaling matrix from `transformations.rs`. -/
def Matrix.scaling (x y z : ℝ) : Matrix :=
  ⟨x, 0, 0, 0,
   0, y, 0, 0,
   0, 0, z, 0,
   0, 0, 0, 1⟩

/-! ## Lights (`light.rs`), patterns (`pattern.rs`) and materials (`material.rs`) -/

/-- Point light from `light.rs`. -/
structure PointLight where
  intensity : Color
  position : Tuple

/-- Constructor `PointLight::new` (position first, as in the source). -/
def PointLight.new (position : Tuple) (intensity : Color) : PointLight :=
  ⟨intensity, position⟩

instance : Inhabited PointLight := ⟨⟨⟨0, 0, 0⟩, Tuple.point 0 0 0⟩⟩

/-- Pattern from `pattern.rs`. The pattern system is an external collaborator
of the core: only its transform and its object-space color capability
`pattern_at` are consumed by the shading pipeline, so the `PatternType`
variants (stripes, gradients, noise perturbation, ...) are kept abstract as
the function `at_point`. -/
structure Pattern where
  transform : Matrix
  at_point : Tuple → Color

/-- Function `Pattern::pattern_at` for an unperturbed pattern: dispatch to
the variant's `color_at` at the given pattern-space point. -/
def Pattern.pattern_at (p : Pattern) (point : Tuple) : Color := p.at_point point

/-- Material from `material.rs`. -/
structure Material where
  color : Color
  ambient : ℝ
  diffuse : ℝ
  specular : ℝ
  shininess : ℝ
  reflective : ℝ
  transparency : ℝ
  refractive_index : ℝ
  pattern : Option Pattern

/-- Default material, `Material::new`. -/
def Material.new : Material :=
  { color := ⟨1, 1, 1⟩
    ambient := 0.1
    diffuse := 0.9
    specular := 0.9
    shininess := 200
    reflective := 0
    transparency := 0
    refractive_index := 1
    pattern := none }

/-- Material equality from `impl PartialEq for Material` in `material.rs`:
the colors are compared with the `Color` comparison, and the ambient,
diffuse, specular and shininess coefficients with `approx_eq!` at
`epsilon = EPSILON`. No other field is read. -/
def materialEq (a b : Material) : Prop :=
  colorEq a.color b.color ∧
  approxEq EPSILON a.ambient b.ambient ∧
  approxEq EPSILON a.diffuse b.diffuse ∧
  approxEq EPSILON a.specular b.specular ∧
  approxEq EPSILON a.shininess b.shininess

/-! ## Shapes and objects (`shape.rs`, `sphere.rs`, `plane.rs`) -/

/-- Shape variants of the `ShapeType` enum in `shape.rs` (sphere and plane;
the cube and cylinder of `shapes/` are embedded separately below with their
own local-intersection routines). The sphere carries its `center` and
`radius` fields from `sphere.rs`. -/
inductive ShapeType where
  | sphere (center : Tuple) (radius : ℝ)
  | plane

/-- Object from `shape.rs`: transform, shape variant and material, plus the
arena identifier `id` modelling Rust reference identity (`std::ptr::eq`),
which the container-stack bookkeeping and intersection equality rely on. -/
structure Object where
  transform : Matrix
  shape : ShapeType
  material : Material
  id : ℕ

/-- Function `Pattern::pattern_at_object`: push the world point into object
space via the object's inverse transform, then into pattern space via the
pattern's inverse transform, and evaluate the pattern there. -/
def Pattern.pattern_at_object (p : Pattern) (object : Object) (point : Tuple) : Color :=
  p.pattern_at (p.transform.inverse.mulTuple (object.transform.inverse.mulTuple point))

/-- Ray from `ray.rs`: origin point and direction vector. -/
structure Ray where
  origin : Tuple
  direction : Tuple

/-- Function `Ray::position`: `origin + direction * time`. -/
def Ray.position (r : Ray) (time : ℝ) : Tuple := r.origin + r.direction * time

/-- Function `Ray::transform`: apply a matrix to origin and direction. -/
def Ray.transformBy (r : Ray) (m : Matrix) : Ray :=
  ⟨m.mulTuple r.origin, m.mulTuple r.direction⟩

/-- Object-space normal dispatch (`Object::local_object_normal` in
`shape.rs`): a sphere's local normal is the local point as a vector
(`sphere.rs`), a plane's is the constant +Y vector (`plane.rs`). -/
def Object.localNormal (obj : Object) (p : Tuple) : Tuple :=
  match obj.shape with
  | .sphere _ _ => Tuple.vector p.x p.y p.z
  | .plane => Tuple.vector 0 1 0

/-- World-space normal (`Object::normal_object` in `shape.rs`, called
`normal_at` by the shading code): inverse transform the point, take the
local normal, push it back through the inverse transpose, zero the
homogeneous coordinate and normalise. -/
def Object.normal_at (obj : Object) (point : Tuple) : Tuple :=
  let object_space_point := obj.transform.inverse.mulTuple point
  let object_normal := obj.localNormal object_space_point
  let world_normal := obj.transform.inverse.transpose.mulTuple object_normal
  Tuple.normalize ⟨world_normal.x, world_normal.y, world_normal.z, 0⟩

/-! ## Intersections (`intersection.rs`) -/

/-- Intersection from `intersection.rs`: a parametric distance and the object
hit. The Rust struct borrows the object; the embedding carries the object
value, whose `id` stands for the borrowed address. -/
structure Intersection where
  t : ℝ
  object : Object

/-- Intersection equality, `impl PartialEq for Intersection`: equal `t` and
identical object reference (`std::ptr::eq`, here `id` equality). -/
def ieq (a b : Intersection) : Prop := a.t = b.t ∧ a.object.id = b.object.id

instance (a b : Intersection) : Decidable (ieq a b) := by
  unfold ieq; infer_instance

/-- Ordering key used by `impl Ord for Intersection`: ascending by `t`. -/
def tle (a b : Intersection) : Prop := a.t ≤ b.t

instance (a b : Intersection) : Decidable (tle a b) := by
  unfold tle; infer_instance

instance : IsTotal Intersection tle := ⟨fun a b => le_total a.t b.t⟩

instance : IsTrans Intersection tle := ⟨fun _ _ _ h1 h2 => le_trans h1 h2⟩

/-- Sorting of an intersection vector as done by `Vec::sort` with the `Ord`
instance of `intersection.rs` (a stable ascending sort by `t`). -/
def sortByT (l : List Intersection) : List Intersection := l.insertionSort tle

/-- Intersection list from `intersection.rs`. -/
structure IntersectionList where
  intersections : List Intersection

/-- Constructor `IntersectionList::new`: sort the intersections by `t`. -/
def IntersectionList.new (l : List Intersection) : IntersectionList := ⟨sortByT l⟩

/-- Function `IntersectionList::hit`: filter the (sorted) list to the
entries with `t > 0` and return the first of them, if any. -/
def IntersectionList.hit (L : IntersectionList) : Option Intersection :=
  match L.intersections.filter (fun x => decide (0 < x.t)) with
  | [] => none
  | h :: _ => some h

/-- Concatenation `impl Add for IntersectionList`: append and re-sort. -/
instance : Add IntersectionList :=
  ⟨fun a b => ⟨sortByT (a.intersections ++ b.intersections)⟩⟩

/-- Object-space intersection dispatch (`Object::local_object_intersect`):
the sphere quadratic from `sphere.rs` (lines 54-75) and the plane ray-plane
test from `plane.rs`. -/
def Object.localIntersect (obj : Object) (r : Ray) : IntersectionList :=
  match obj.shape with
  | .sphere center _ =>
    let sphere_to_ray := r.origin - center
    let a := r.direction.dot r.direction
    let b := 2 * r.direction.dot sphere_to_ray
    let c := sphere_to_ray.dot sphere_to_ray - 1
    let discriminant := b * b - 4 * a * c
    if discriminant < 0 then IntersectionList.new []
    else
      let t1 := (-b - Real.sqrt discriminant) / (2 * a)
      let t2 := (-b + Real.sqrt discriminant) / (2 * a)
      IntersectionList.new [⟨t1, obj⟩, ⟨t2, obj⟩]
  | .plane =>
    if |r.direction.y| < EPSILON then IntersectionList.new []
    else IntersectionList.new [⟨-r.origin.y / r.direction.y, obj⟩]

/-- Function `Object::intersect_object`: transform the ray into object space
via the inverse transform and intersect locally. -/
def Object.intersect_object (obj : Object) (r : Ray) : IntersectionList :=
  obj.localIntersect (r.transformBy obj.transform.inverse)

/-! ## Shading context (`intersection.rs`, `Intersection::context`) -/

/-- Shading context from `intersection.rs` (`IntersectionContext`). -/
structure IntersectionContext where
  t : ℝ
  object : Object
  point : Tuple
  eye_vector : Tuple
  normal_vector : Tuple
  reflect_vector : Tuple
  inside : Bool
  over_point : Tuple
  under_point : Tuple
  n1 : ℝ
  n2 : ℝ

/-- Refractive index read from the container stack: 1.0 when the stack is
empty, else the refractive index of the shape on top (the `last` of the
Vec). This is the common `if containers.len() == 0 ... else ...` block of
the walk in `Intersection::context`. -/
def refractiveLookup : List Object → ℝ
  | [] => 1
  | [o] => o.material.refractive_index
  | _ :: rest@(_ :: _) => refractiveLookup rest

/-- Container-stack update of the walk in `Intersection::context`: the
source finds the position of the first stack entry matching the current
intersection's object by reference identity and removes it (the ray is
exiting that shape); when there is none it pushes the object onto the end
(the ray is entering it). -/
def updateContainers : List Object → Object → List Object
  | [], o => [o]
  | x :: rest, o => if x.id = o.id then rest else x :: updateContainers rest o

/-- Refractive-index walk of `Intersection::context` (lines 62-91 of
`intersection.rs`): scan the sorted intersection list; at the target hit
read `n1` from the stack, update the stack, read `n2` from the updated
stack and stop; at any other intersection just update the stack. When the
loop ends without meeting the target, `n1` and `n2` keep their initial 0. -/
def n1n2Walk (self : Intersection) : List Intersection → List Object → ℝ × ℝ
  | [], _ => (0, 0)
  | i :: rest, containers =>
    if ieq i self then
      (refractiveLookup containers,
       refractiveLookup (updateContainers containers i.object))
    else
      n1n2Walk self rest (updateContainers containers i.object)

/-- Function `Intersection::context` from `intersection.rs` (lines 46-107):
derived hit geometry plus the refractive-index pair. With `xs = None` the
walk never runs and `n1`, `n2` keep their initial value 0. -/
def Intersection.context (self : Intersection) (ray : Ray)
    (xs : Option IntersectionList) : IntersectionContext :=
  let point := ray.position self.t
  let eye_vector := -ray.direction
  let inside := (self.object.normal_at point).dot eye_vector < 0
  let normal_vector :=
    if inside then -(self.object.normal_at point) else self.object.normal_at point
  let over_point := point + normal_vector * EPSILON
  let under_point := point - normal_vector * EPSILON
  let reflect_vector := ray.direction.reflect normal_vector
  let n12 : ℝ × ℝ :=
    match xs with
    | none => (0, 0)
    | some xs => n1n2Walk self xs.intersections []
  { t := self.t
    object := self.object
    point := point
    eye_vector := eye_vector
    normal_vector := normal_vector
    reflect_vector := reflect_vector
    inside := decide inside
    over_point := over_point
    under_point := under_point
    n1 := n12.1
    n2 := n12.2 }

/-! ## Local lighting (`material.rs`, `Material::lighting`) -/

/-- Phong lighting from `Material::lighting` in `material.rs` (lines 34-78):
pattern-or-flat base color, Hadamard effective color, constant ambient term,
and diffuse/specular terms that stay at their initial black unless the point
is unshadowed and the light is not behind the surface. -/
def Material.lighting (m : Material) (light : PointLight) (object : Object)
    (point eye_vector normal_vector : Tuple) (in_shadow : Bool) : Color :=
  let color :=
    match m.pattern with
    | none => m.color
    | some pattern => pattern.pattern_at_object object point
  let effective_color := color * light.intensity
  let light_vector := (light.position - point).normalize
  let ambient := effective_color * m.ambient
  let light_dot_normal := light_vector.dot normal_vector
  let ds : Color × Color :=
    if in_shadow = false ∧ 0 ≤ light_dot_normal then
      let diffuse := effective_color * m.diffuse * light_dot_normal
      let reflect_vector := -(light_vector.reflect normal_vector)
      let reflect_dot_eye := reflect_vector.dot eye_vector
      if 0 < reflect_dot_eye then
        let factor := Real.rpow reflect_dot_eye m.shininess
        (diffuse, light.intensity * m.specular * factor)
      else (diffuse, ⟨0, 0, 0⟩)
    else (⟨0, 0, 0⟩, ⟨0, 0, 0⟩)
  ambient + ds.1 + ds.2

/-! ## World and shadow test (`world.rs`) -/

/-- World from `world.rs`: the scene's objects and lights. The source splits
the object list across two representations mid-refactor (`Vec<Box<dyn
Shape>>` and `Vec<Object>`); the embedding uses the single `Object` list the
intersection pipeline consumes. -/
structure World where
  objects : List Object
  lights : List PointLight

/-- Function `Ray::project_into_world` (`intersect_world` in the spec):
intersect every object and merge the per-object lists with the sorting
concatenation, starting from an empty list. -/
def Ray.project_into_world (r : Ray) (w : World) : IntersectionList :=
  (w.objects.map (fun object => object.intersect_object r)).foldl
    (fun i1 i2 => i1 + i2) ⟨[]⟩

/-- Shadow test `World::is_shadowed` from `world.rs` (lines 31-51): cast a
ray from the point toward the (single) light; the point is in shadow exactly
when the nearest positive hit lies strictly closer than the light. The
source asserts that the world has exactly one light and reads `lights[0]`. -/
def World.is_shadowed (w : World) (point : Tuple) : Bool :=
  let light := w.lights.headI
  let v := light.position - point
  let distance := v.magnitude
  let direction := v.normalize
  let r : Ray := ⟨point, direction⟩
  let i := r.project_into_world w
  match i.hit with
  | some h => decide (h.t < distance)
  | none => false

/-- Outer sphere of `World::default`: unit sphere, identity transform,
color (0.8, 1, 0.6), diffuse 0.7, specular 0.2. -/
def defaultSphere1 : Object :=
  { transform := Matrix.identityM
    shape := .sphere (Tuple.point 0 0 0) 1
    material :=
      { Material.new with color := ⟨0.8, 1, 0.6⟩, diffuse := 0.7, specular := 0.2 }
    id := 0 }

/-- Inner sphere of `World::default`: unit sphere scaled by 0.5, default
material. -/
def defaultSphere2 : Object :=
  { transform := Matrix.scaling 0.5 0.5 0.5
    shape := .sphere (Tuple.point 0 0 0) 1
    material := Material.new
    id := 1 }

/-- Default world, `World::default`: the two spheres above and a white
light at (-10, 10, -10). -/
def World.defaultWorld : World :=
  { objects := [defaultSphere1, defaultSphere2]
    lights := [PointLight.new (Tuple.point (-10) 10 (-10)) ⟨1, 1, 1⟩] }

/-! ## Fresnel reflectance (`IntersectionContext::schlick`) -/

/-- Schlick reflectance as the code computes it (`intersection.rs` lines
162-178). Note the final factor: the source applies `.sqrt()` to
`1. - cos`. The mutable `cos` of the source becomes branch duplication:
when `n1 > n2` without total internal reflection, `cos` is replaced by
`cos_t` before the shared tail. -/
def IntersectionContext.schlick (ctx : IntersectionContext) : ℝ :=
  let cos := ctx.eye_vector.dot ctx.normal_vector
  if ctx.n1 > ctx.n2 then
    let n := ctx.n1 / ctx.n2
    let sin2_t := n * n * (1 - cos * cos)
    if sin2_t > 1 then 1
    else
      let cos_t := Real.sqrt (1 - sin2_t)
      let r0 := ((ctx.n1 - ctx.n2) / (ctx.n1 + ctx.n2)) ^ 2
      r0 + (1 - r0) * Real.sqrt (1 - cos_t)
  else
    let r0 := ((ctx.n1 - ctx.n2) / (ctx.n1 + ctx.n2)) ^ 2
    r0 + (1 - r0) * Real.sqrt (1 - cos)

/-- Schlick reflectance as the spec words it: identical to
`IntersectionContext.schlick` except that the final factor is the fifth
power of `(1 - cos)` rather than a square root. Kept for comparison with
the code's version. -/
def IntersectionContext.schlick_spec (ctx : IntersectionContext) : ℝ :=
  let cos := ctx.eye_vector.dot ctx.normal_vector
  if ctx.n1 > ctx.n2 then
    let n := ctx.n1 / ctx.n2
    let sin2_t := n * n * (1 - cos * cos)
    if sin2_t > 1 then 1
    else
      let cos_t := Real.sqrt (1 - sin2_t)
      let r0 := ((ctx.n1 - ctx.n2) / (ctx.n1 + ctx.n2)) ^ 2
      r0 + (1 - r0) * (1 - cos_t) ^ 5
  else
    let r0 := ((ctx.n1 - ctx.n2) / (ctx.n1 + ctx.n2)) ^ 2
    r0 + (1 - r0) * (1 - cos) ^ 5

/-! ## Recursive color resolver (`intersection.rs` lines 109-160, `ray.rs`
lines 49-56)

The mutual recursion `color_hit -> shade_hit -> reflected_color /
refracted_color -> color_hit` is tied through the bounce budget: the bodies
are first written with the recursive callee abstracted as `recur` (standing
for `|r| r.color_hit(world, remaining - 1)`), and the knot `color_hit` is
then closed by structural recursion on the budget, which is exactly the
termination argument of the design. `Ray::color_hit` itself is called by
`reflected_color`/`refracted_color` but its definition is absent from the
provided sources; it is modelled from the spec's `color_at` description,
which coincides with `Ray::color_at` in `ray.rs` (lines 49-56). -/

/-- Body of `IntersectionContext::reflected_color` (`intersection.rs` lines
110-117), with `recur r` standing for `r.color_hit(world, remaining - 1)`. -/
def reflectedColorF (recur : Ray → Color) (ctx : IntersectionContext)
    (remaining : ℕ) : Color :=
  if ctx.object.material.reflective = 0 ∨ remaining = 0 then BLACK
  else
    let reflect_ray : Ray := ⟨ctx.over_point, ctx.reflect_vector⟩
    recur reflect_ray * ctx.object.material.reflective

/-- Body of `IntersectionContext::refracted_color` (`intersection.rs` lines
119-136), with `recur r` standing for `r.color_hit(world, remaining - 1)`. -/
def refractedColorF (recur : Ray → Color) (ctx : IntersectionContext)
    (remaining : ℕ) : Color :=
  if ctx.object.material.transparency = 0 ∨ remaining = 0 then BLACK
  else
    let nRat := ctx.n1 / ctx.n2
    let cos_i := ctx.eye_vector.dot ctx.normal_vector
    let sin2_t := nRat * nRat * (1 - cos_i * cos_i)
    if sin2_t > 1 then BLACK
    else
      let cos_t := Real.sqrt (1 - sin2_t)
      let direction :=
        ctx.normal_vector * (nRat * cos_i - cos_t) - ctx.eye_vector * nRat
      let refracted_ray : Ray := ⟨ctx.under_point, direction⟩
      recur refracted_ray * ctx.object.material.transparency

/-- Body of `IntersectionContext::shade_hit` (`intersection.rs` lines
138-160): surface lighting plus the reflected and refracted contributions,
Schlick-blended when the material is both reflective and transparent. -/
def shadeHitF (recur : Ray → Color) (w : World) (ctx : IntersectionContext)
    (remaining : ℕ) : Color :=
  let in_shadow := w.is_shadowed ctx.over_point
  let surface := ctx.object.material.lighting w.lights.headI ctx.object
    ctx.over_point ctx.eye_vector ctx.normal_vector in_shadow
  let reflected := reflectedColorF recur ctx remaining
  let refracted := refractedColorF recur ctx remaining
  if 0 < ctx.object.material.reflective ∧ 0 < ctx.object.material.transparency then
    let reflectance := ctx.schlick
    surface + reflected * reflectance + refracted * (1 - reflectance)
  else
    surface + reflected + refracted

/-- Body of `Ray::color_at` (`ray.rs` lines 49-56): intersect the world,
return black on a miss, else shade the hit's context built with the full
intersection list. -/
def colorBody (recur : Ray → Color) (w : World) (remaining : ℕ) (ray : Ray) :
    Color :=
  let i := ray.project_into_world w
  match i.hit with
  | none => ⟨0, 0, 0⟩
  | some h => shadeHitF recur w (h.context ray (some i)) remaining

/-- The closed recursion `Ray::color_hit`, by structural recursion on the
bounce budget. Modelled from the spec: `color_hit`'s own definition is not
in the provided sources; per the spec's `color_at`, it intersects the world
and shades the hit, each reflective or refractive bounce decrementing the
budget by exactly 1. At budget 0 the recursive callee is unreachable (both
bounce branches return black first); it is closed off with the constant
black function, and `colorBody_zero_recur_irrelevant` below proves any other
closure gives the same function. -/
def color_hit (w : World) : ℕ → Ray → Color
  | 0 => colorBody (fun _ => BLACK) w 0
  | n + 1 => colorBody (color_hit w n) w (n + 1)

/-- Function `IntersectionContext::reflected_color`: the body applied to the
recursive callee at budget `remaining - 1`. -/
def IntersectionContext.reflected_color (ctx : IntersectionContext) (w : World)
    (remaining : ℕ) : Color :=
  reflectedColorF (color_hit w (remaining - 1)) ctx remaining

/-- Function `IntersectionContext::refracted_color`: the body applied to the
recursive callee at budget `remaining - 1`. -/
def IntersectionContext.refracted_color (ctx : IntersectionContext) (w : World)
    (remaining : ℕ) : Color :=
  refractedColorF (color_hit w (remaining - 1)) ctx remaining

/-- Function `IntersectionContext::shade_hit`. -/
def IntersectionContext.shade_hit (ctx : IntersectionContext) (w : World)
    (remaining : ℕ) : Color :=
  shadeHitF (color_hit w (remaining - 1)) w ctx remaining

/-- Function `Ray::color_at` (`ray.rs` lines 49-56). -/
def Ray.color_at (ray : Ray) (w : World) (remaining : ℕ) : Color :=
  colorBody (color_hit w (remaining - 1)) w remaining ray

/-! ## Cylinder (`shapes/cylinder.rs`) -/

/-- Cylinder local intersection from `shapes/cylinder.rs` (lines 35-58),
translated with the source's operator precedence kept intact: in
`-b - discriminant.sqrt() / (2. * a)` the division applies to the square
root alone. -/
def Cylinder.local_intersect (ray : Ray) (object : Object) : IntersectionList :=
  let a := ray.direction.x * ray.direction.x + ray.direction.z * ray.direction.z
  if |a - 0| ≤ EPSILON then IntersectionList.new []
  else
    let b := 2 * ray.origin.x * ray.direction.x + 2 * ray.origin.z * ray.direction.z
    let c := ray.origin.x * ray.origin.x + ray.origin.z * ray.origin.z - 1
    let discriminant := b * b - 4 * a * c
    if discriminant < 0 then IntersectionList.new []
    else
      let t0 := -b - Real.sqrt discriminant / (2 * a)
      let t1 := -b + Real.sqrt discriminant / (2 * a)
      IntersectionList.new [⟨t0, object⟩, ⟨t1, object⟩]

/-! ## Cube slab test (`shapes/cube.rs`) over extended float values

The designed behaviour of `Cube::check_axis` divides by a possibly zero
direction component and relies on IEEE semantics: a nonzero numerator over
zero gives a signed infinity, `0.0 / 0.0` gives NaN, comparisons against NaN
are false, and `f64::max`/`f64::min` drop a NaN argument. The `Fp` type
carries exactly these extra values over `ℝ` (with a single zero, so the
sign of an IEEE negative zero divisor is not represented). -/

/-- Extended float value: finite real, the two infinities, or NaN. -/
inductive Fp where
  | fin : ℝ → Fp
  | pinf : Fp
  | ninf : Fp
  | nan : Fp

/-- Division of finite values as `f64` performs it: signed infinity on a
nonzero numerator over zero, NaN on zero over zero. -/
def Fp.div (a b : ℝ) : Fp :=
  if b = 0 then
    if 0 < a then .pinf
    else if a < 0 then .ninf
    else .nan
  else .fin (a / b)

/-- Strict greater-than on extended values; any comparison involving NaN is
false, as for `f64`. -/
def Fp.gt : Fp → Fp → Bool
  | .nan, _ => false
  | _, .nan => false
  | .fin a, .fin b => decide (b < a)
  | .pinf, .pinf => false
  | .pinf, _ => true
  | _, .pinf => false
  | .fin _, .ninf => true
  | .ninf, _ => false

/-- Maximum with the `f64::max` convention: a NaN argument is dropped in
favour of the other. -/
def Fp.max (a b : Fp) : Fp :=
  match a, b with
  | .nan, x => x
  | x, .nan => x
  | x, y => if Fp.gt x y then x else y

/-- Minimum with the `f64::min` convention: a NaN argument is dropped in
favour of the other. -/
def Fp.min (a b : Fp) : Fp :=
  match a, b with
  | .nan, x => x
  | x, .nan => x
  | x, y => if Fp.gt x y then y else x

/-- Function `Cube::check_axis` (`shapes/cube.rs` lines 26-38): the two slab
boundary parameters for one axis, swapped into ascending order when they
compare as out of order. -/
def check_axis (origin direction : ℝ) : Fp × Fp :=
  let tmin_numerator := -1 - origin
  let tmax_numerator := 1 - origin
  let tmin := Fp.div tmin_numerator direction
  let tmax := Fp.div tmax_numerator direction
  if Fp.gt tmin tmax then (tmax, tmin) else (tmin, tmax)

/-- Overall slab minimum of `Cube::local_intersect`: the fold of `f64::max`
over the per-axis minima, seeded with `NEG_INFINITY`. -/
def cubeTmin (r : Ray) : Fp :=
  Fp.max (Fp.max (Fp.max .ninf (check_axis r.origin.x r.direction.x).1)
      (check_axis r.origin.y r.direction.y).1)
    (check_axis r.origin.z r.direction.z).1

/-- Overall slab maximum of `Cube::local_intersect`: the fold of `f64::min`
over the per-axis maxima, seeded with `INFINITY`. -/
def cubeTmax (r : Ray) : Fp :=
  Fp.min (Fp.min (Fp.min .pinf (check_axis r.origin.x r.direction.x).2)
      (check_axis r.origin.y r.direction.y).2)
    (check_axis r.origin.z r.direction.z).2

/-- Function `Cube::local_intersect` (`shapes/cube.rs` lines 40-63): no
intersection when the overall minimum exceeds the overall maximum, else the
two parameters in order. The two-element `IntersectionList::new` of the
source is modelled as the ordered pair (its sort is the identity here, and
no NaN ever reaches it, which is what keeps the `Ord`-based sort from
panicking). -/
def Cube.local_intersect (r : Ray) : Option (Fp × Fp) :=
  if Fp.gt (cubeTmin r) (cubeTmax r) then none
  else some (cubeTmin r, cubeTmax r)

/-! ## Concrete instances used by the scenario proofs and witnesses -/

/-- Glass material of `Sphere::glass_new`: default material with
transparency 1 and refractive index 1.5. -/
def glassMaterial : Material :=
  { Material.new with transparency := 1, refractive_index := 1.5 }

/-- Outermost glass sphere of the nested-spheres scenario (refractive index
1.5, scaled by 2), arena id 0. -/
def sphereA : Object :=
  { transform := Matrix.scaling 2 2 2
    shape := .sphere (Tuple.point 0 0 0) 1
    material := { glassMaterial with refractive_index := 1.5 }
    id := 0 }

/-- First inner glass sphere of the scenario (refractive index 2.0,
translated by (0, 0, -0.25)), arena id 1. -/
def sphereB : Object :=
  { transform := Matrix.translation 0 0 (-0.25)
    shape := .sphere (Tuple.point 0 0 0) 1
    material := { glassMaterial with refractive_index := 2 }
    id := 1 }

/-- Second inner glass sphere of the scenario (refractive index 2.5,
translated by (0, 0, 0.25)), arena id 2. -/
def sphereC : Object :=
  { transform := Matrix.translation 0 0 0.25
    shape := .sphere (Tuple.point 0 0 0) 1
    material := { glassMaterial with refractive_index := 2.5 }
    id := 2 }

/-- Ray of the nested-spheres scenario: origin (0, 0, -4), direction
(0, 0, 1). -/
def scenarioRay : Ray := ⟨Tuple.point 0 0 (-4), Tuple.vector 0 0 1⟩

/-- Intersection list of the nested-spheres scenario, with the six hits at
t = 2, 2.75, 3.25, 4.75, 5.25, 6 as in the repository's
`refractive_indices` test. -/
def scenarioList : IntersectionList :=
  IntersectionList.new
    [⟨2, sphereA⟩, ⟨2.75, sphereB⟩, ⟨3.25, sphereC⟩,
     ⟨4.75, sphereB⟩, ⟨5.25, sphereC⟩, ⟨6, sphereA⟩]

/-- Shading context exercising `schlick` away from its branches: `n1 = n2`
(so the `n1 > n2` branch is not taken and `cos` is left at `eye · normal`)
with `eye · normal = 3/4`. -/
def schlickContext : IntersectionContext :=
  { t := 1
    object := sphereA
    point := Tuple.point 0 0 0
    eye_vector := Tuple.vector 0 0 1
    normal_vector := Tuple.vector 0 0 (3/4)
    reflect_vector := Tuple.vector 0 0 0
    inside := false
    over_point := Tuple.point 0 0 0
    under_point := Tuple.point 0 0 0
    n1 := 1.5
    n2 := 1.5 }

/-- Tag object for the cylinder intersections. The `ShapeType` enum of
`shape.rs` has no cylinder variant in this snapshot of the repository
(`Cylinder::new` constructs one that the enum does not declare); the local
intersection routine only stores the reference in the produced
intersections, so any object serves as the tag. -/
def cylinderTag : Object :=
  { transform := Matrix.identityM
    shape := .plane
    material := Material.new
    id := 9 }

/-- Ray aimed through the unit cylinder from z = -5: the quadratic has
a = 1, b = -10, c = 24, hence roots 4 and 6. -/
def cylinderRay : Ray := ⟨Tuple.point 0 0 (-5), Tuple.vector 0 0 1⟩

/-- Unsorted intersection list from the repository's `hit` test: t values
5, 7, -3, 2, whose hit is the one at t = 2. -/
def hitSample : List Intersection :=
  [⟨5, sphereA⟩, ⟨7, sphereA⟩, ⟨-3, sphereA⟩, ⟨2, sphereA⟩]

/-- World with no objects and one light, used to exercise the shading
recursion on closed inputs. -/
def emptyWorld : World :=
  { objects := []
    lights := [PointLight.new (Tuple.point 0 0 0) ⟨1, 1, 1⟩] }

/-- Context whose material is the default (reflective 0, transparency 0),
used to witness the black-on-zero branches of the bounce functions. -/
def defaultContext : IntersectionContext :=
  { t := 1
    object := { transform := Matrix.identityM
                shape := .sphere (Tuple.point 0 0 0) 1
                material := Material.new
                id := 3 }
    point := Tuple.point 0 0 0
    eye_vector := Tuple.vector 0 0 1
    normal_vector := Tuple.vector 0 0 1
    reflect_vector := Tuple.vector 0 0 1
    inside := false
    over_point := Tuple.point 0 0 0
    under_point := Tuple.point 0 0 0
    n1 := 1
    n2 := 1 }

/-- Context whose material is fully reflective, used to witness the
budget-decrement equation of `reflected_color`. -/
def mirrorContext : IntersectionContext :=
  { defaultContext with
    object := { transform := Matrix.identityM
                shape := .sphere (Tuple.point 0 0 0) 1
                material := { Material.new with reflective := 1 }
                id := 4 } }

/-- Shadow-scenario point (10, -10, 10) of the default world, expected to be
shadowed. -/
def shadowedPoint : Tuple := Tuple.point 10 (-10) 10

/-- Shadow-scenario point (0, 10, 0) of the default world, expected to be
lit. -/
def litPoint : Tuple := Tuple.point 0 10 0

/-- Ray grazing no cube face, from the repository's cube `intersect` test:
origin (5, 0.5, 0), direction (-1, 0, 0), expected hits at t = 4 and 6. -/
def cubeRay : Ray := ⟨Tuple.point 5 0.5 0, Tuple.vector (-1) 0 0⟩

/-! ## Componentwise unfolding lemmas for the arithmetic instances -/

@[simp]
theorem Tuple.add_def (a b : Tuple) :
    a + b = ⟨a.x + b.x, a.y + b.y, a.z + b.z, a.w + b.w⟩ := rfl

@[simp]
theorem Tuple.sub_def (a b : Tuple) :
    a - b = ⟨a.x - b.x, a.y - b.y, a.z - b.z, a.w - b.w⟩ := rfl

@[simp]
theorem Tuple.neg_def (a : Tuple) : -a = ⟨-a.x, -a.y, -a.z, -a.w⟩ := rfl

@[simp]
theorem Tuple.smul_def (a : Tuple) (s : ℝ) :
    a * s = ⟨a.x * s, a.y * s, a.z * s, a.w * s⟩ := rfl

@[simp]
theorem Tuple.sdiv_def (a : Tuple) (s : ℝ) :
    a / s = ⟨a.x / s, a.y / s, a.z / s, a.w / s⟩ := rfl

@[simp]
theorem Color.add_color_def (a b : Color) :
    a + b = ⟨a.red + b.red, a.green + b.green, a.blue + b.blue⟩ := rfl

@[simp]
theorem Color.mul_def (a b : Color) :
    a * b = ⟨a.red * b.red, a.green * b.green, a.blue * b.blue⟩ := rfl

@[simp]
theorem Color.smul_color_def (a : Color) (s : ℝ) :
    a * s = ⟨a.red * s, a.green * s, a.blue * s⟩ := rfl

theorem color_add_black (c : Color) : c + ⟨0, 0, 0⟩ = c := by
  cases c; simp

@[simp]
theorem IntersectionList.add_lists_def (a b : IntersectionList) :
    a + b = ⟨sortByT (a.intersections ++ b.intersections)⟩ := rfl

theorem approxEq_refl {e : ℝ} (he : 0 ≤ e) (a : ℝ) : approxEq e a a := by
  simpa [approxEq] using he

theorem colorEq_refl (c : Color) : colorEq c c := by
  refine ⟨approxEq_refl ?_ _, approxEq_refl ?_ _, approxEq_refl ?_ _⟩ <;>
    simp [F64_MACHINE_EPSILON]

/-- C6: when `in_shadow` is true, `Material::lighting` returns exactly the
ambient term `effective_color * material.ambient`; the diffuse and specular
contributions remain at their initial black. -/
theorem lighting_in_shadow_is_ambient_only (m : Material) (light : PointLight)
    (object : Object) (point eye_vector normal_vector : Tuple) :
    m.lighting light object point eye_vector normal_vector true =
      (match m.pattern with
       | none => m.color
       | some pattern => pattern.pattern_at_object object point) *
        light.intensity * m.ambient := by
  simp only [Material.lighting]
  rw [if_neg (by simp)]
  exact color_add_black _ |>.trans (color_add_black _) |>.symm ▸ rfl

/-- C9: building a shading context with `xs = None` leaves both refractive
indices at 0 (not the vacuum index 1), so the Snell ratio `n1 / n2` that
`refracted_color` forms on such a context is literally `0 / 0`. -/
theorem context_without_list_has_zero_indices (i : Intersection) (ray : Ray) :
    (i.context ray none).n1 = 0 ∧ (i.context ray none).n2 = 0 ∧
      (i.context ray none).n1 / (i.context ray none).n2 = (0 : ℝ) / 0 := by
  refine ⟨?_, ?_, ?_⟩ <;> simp [Intersection.context]

/-- C10: material equality compares exactly the color (with the `Color`
comparison) and the ambient, diffuse, specular and shininess coefficients
(approximately, within EPSILON); the reflective, transparency,
refractive-index and pattern fields never participate, so materials
differing only in those fields compare equal. -/
theorem materialEq_fields_and_insensitivity :
    (∀ a b : Material, materialEq a b ↔
      (colorEq a.color b.color ∧
       approxEq EPSILON a.ambient b.ambient ∧
       approxEq EPSILON a.diffuse b.diffuse ∧
       approxEq EPSILON a.specular b.specular ∧
       approxEq EPSILON a.shininess b.shininess)) ∧
    (∀ (m : Material) (r t ri : ℝ) (p : Option Pattern),
      materialEq m { m with reflective := r, transparency := t,
                            refractive_index := ri, pattern := p }) := by
  constructor
  · intro a b; exact Iff.rfl
  · intro m r t ri p
    refine ⟨colorEq_refl _, ?_, ?_, ?_, ?_⟩ <;>
      exact approxEq_refl (by norm_num [EPSILON]) _

/-! ## Recursion discipline lemmas -/

theorem reflectedColorF_zero (recur : Ray → Color) (ctx : IntersectionContext) :
    reflectedColorF recur ctx 0 = BLACK := by
  simp [reflectedColorF]

theorem refractedColorF_zero (recur : Ray → Color) (ctx : IntersectionContext) :
    refractedColorF recur ctx 0 = BLACK := by
  simp [refractedColorF]

theorem shadeHitF_zero (r1 r2 : Ray → Color) (w : World) (ctx : IntersectionContext) :
    shadeHitF r1 w ctx 0 = shadeHitF r2 w ctx 0 := by
  simp [shadeHitF, reflectedColorF_zero, refractedColorF_zero]

theorem colorBody_recur_irrelevant_at_zero (r1 r2 : Ray → Color) (w : World)
    (ray : Ray) : colorBody r1 w 0 ray = colorBody r2 w 0 ray := by
  simp only [colorBody]
  cases (ray.project_into_world w).hit with
  | none => rfl
  | some h => exact shadeHitF_zero r1 r2 w _

theorem color_at_eq_color_hit (w : World) (ray : Ray) :
    ∀ n, ray.color_at w n = color_hit w n ray
  | 0 => colorBody_recur_irrelevant_at_zero (color_hit w 0) (fun _ => BLACK) w ray
  | _ + 1 => rfl

/-- C1: evidence that `schlick` diverges from the Schlick approximation the
spec requires. On a context with `n1 = n2 = 1.5` (so the `n1 > n2` branch is
skipped and `cos` stays `eye · normal = 3/4`, with `n1 + n2 ≠ 0`), the code
returns `r0 + (1-r0) * sqrt(1-cos) = 1/2`, while the specified fifth power
gives `r0 + (1-r0) * (1-cos)^5 = 1/1024`. -/
theorem schlick_takes_square_root_not_fifth_power :
    schlickContext.n1 + schlickContext.n2 ≠ 0 ∧
    schlickContext.schlick = 1 / 2 ∧
    schlickContext.schlick_spec = 1 / 1024 ∧
    (1 : ℝ) / 2 ≠ 1 / 1024 := by
  refine ⟨by norm_num [schlickContext], ?_, ?_, by norm_num⟩
  · simp only [IntersectionContext.schlick, schlickContext, Tuple.dot, Tuple.vector]
    rw [if_neg (by norm_num)]
    norm_num
    rw [show (4 : ℝ) = 2 ^ 2 by norm_num, Real.sqrt_sq (by norm_num)]
    norm_num
  · simp only [IntersectionContext.schlick_spec, schlickContext, Tuple.dot, Tuple.vector]
    rw [if_neg (by norm_num)]
    norm_num

/-- C4: discipline of the bounce budget. Both bounce functions return black
unconditionally at budget 0 and on a zero coefficient; at a positive budget
the recursive call is made with exactly `remaining - 1`; and the recursion
entered through `color_at` coincides with `color_hit`, the function defined
by structural recursion on the budget, so its depth is bounded by the
initial budget for every world, scene topology included. -/
theorem bounce_budget_discipline :
    (∀ (w : World) (ctx : IntersectionContext),
        ctx.reflected_color w 0 = BLACK ∧ ctx.refracted_color w 0 = BLACK) ∧
    (∀ (w : World) (ctx : IntersectionContext) (remaining : ℕ),
        ctx.object.material.reflective = 0 →
        ctx.reflected_color w remaining = BLACK) ∧
    (∀ (w : World) (ctx : IntersectionContext) (remaining : ℕ),
        ctx.object.material.transparency = 0 →
        ctx.refracted_color w remaining = BLACK) ∧
    (∀ (w : World) (ctx : IntersectionContext) (n : ℕ),
        ctx.object.material.reflective ≠ 0 →
        ctx.reflected_color w (n + 1) =
          color_hit w n ⟨ctx.over_point, ctx.reflect_vector⟩ *
            ctx.object.material.reflective) ∧
    (∀ (w : World) (ctx : IntersectionContext) (n : ℕ),
        ctx.refracted_color w (n + 1) = refractedColorF (color_hit w n) ctx (n + 1)) ∧
    (∀ (w : World) (ray : Ray) (remaining : ℕ),
        ray.color_at w remaining = color_hit w remaining ray) := by
  refine ⟨?_, ?_, ?_, ?_, ?_, ?_⟩
  · exact fun w ctx =>
      ⟨reflectedColorF_zero _ ctx, refractedColorF_zero _ ctx⟩
  · intro w ctx remaining h
    simp [IntersectionContext.reflected_color, reflectedColorF, h]
  · intro w ctx remaining h
    simp [IntersectionContext.refracted_color, refractedColorF, h]
  · intro w ctx n h
    simp only [IntersectionContext.reflected_color, reflectedColorF]
    rw [if_neg (by simp [h])]
    simp
  · intro w ctx n
    rfl
  · exact fun w ray remaining => color_at_eq_color_hit w ray remaining

/-- Witness for C4 at concrete inputs: the default material has reflectivity
and transparency 0, so both bounce functions return black on a context
carrying it, and a fully mirrored context at budget 1 makes its recursive
call at budget 0. -/
theorem bounce_budget_discipline_witness :
    defaultContext.object.material.reflective = 0 ∧
    defaultContext.reflected_color emptyWorld 3 = BLACK ∧
    defaultContext.refracted_color emptyWorld 3 = BLACK ∧
    mirrorContext.object.material.reflective ≠ 0 ∧
    mirrorContext.reflected_color emptyWorld 1 =
      color_hit emptyWorld 0 ⟨mirrorContext.over_point, mirrorContext.reflect_vector⟩ *
        mirrorContext.object.material.reflective := by
  refine ⟨rfl, ?_, ?_, ?_, ?_⟩
  · exact bounce_budget_discipline.2.1 emptyWorld defaultContext 3 rfl
  · exact bounce_budget_discipline.2.2.1 emptyWorld defaultContext 3 rfl
  · norm_num [mirrorContext, defaultContext, Material.new]
  · exact bounce_budget_discipline.2.2.2.1 emptyWorld mirrorContext 0
      (by norm_num [mirrorContext, defaultContext, Material.new])

/-! ## Ordering lemmas for the intersection lists -/

theorem sortByT_sorted (l : List Intersection) : List.Sorted tle (sortByT l) :=
  List.sorted_insertionSort tle l

theorem mem_sortByT {l : List Intersection} {x : Intersection} :
    x ∈ sortByT l ↔ x ∈ l :=
  List.mem_insertionSort tle

theorem hit_of_sorted (l : List Intersection) :
    ((IntersectionList.mk (sortByT l)).hit = none ↔ ∀ i ∈ l, ¬ 0 < i.t) ∧
    (∀ h, (IntersectionList.mk (sortByT l)).hit = some h →
      0 < h.t ∧ h ∈ l ∧ ∀ i ∈ l, 0 < i.t → h.t ≤ i.t) := by
  have hsor : List.Sorted tle (sortByT l) := sortByT_sorted l
  constructor
  · simp only [IntersectionList.hit]
    cases hf : (sortByT l).filter (fun x => decide (0 < x.t)) with
    | nil =>
      simp only [true_iff]
      intro i hi hpos
      have : i ∈ (sortByT l).filter (fun x => decide (0 < x.t)) :=
        List.mem_filter.mpr ⟨mem_sortByT.mpr hi, by simpa using hpos⟩
      simp [hf] at this
    | cons h rest =>
      simp only [reduceCtorEq, false_iff, not_forall]
      refine ⟨h, mem_sortByT.mp (List.mem_of_mem_filter (hf ▸ List.mem_cons_self h rest)), ?_⟩
      have := List.of_mem_filter (hf ▸ List.mem_cons_self h rest)
      simpa using this
  · intro h hh
    simp only [IntersectionList.hit] at hh
    cases hf : (sortByT l).filter (fun x => decide (0 < x.t)) with
    | nil => rw [hf] at hh; exact absurd hh (by simp)
    | cons h0 rest =>
      rw [hf] at hh
      have hh0 : h = h0 := by simpa using hh.symm
      subst hh0
      have hmemf : h ∈ (sortByT l).filter (fun x => decide (0 < x.t)) :=
        hf ▸ List.mem_cons_self h rest
      have hpos : 0 < h.t := by simpa using List.of_mem_filter hmemf
      have hmem : h ∈ l := mem_sortByT.mp (List.mem_of_mem_filter hmemf)
      refine ⟨hpos, hmem, ?_⟩
      intro i hi hipos
      have hif : i ∈ (sortByT l).filter (fun x => decide (0 < x.t)) :=
        List.mem_filter.mpr ⟨mem_sortByT.mpr hi, by simpa using hipos⟩
      rw [hf] at hif
      rcases List.mem_cons.mp hif with rfl | hrest
      · exact le_refl _
      · have hsf : List.Sorted tle ((sortByT l).filter (fun x => decide (0 < x.t))) :=
          List.Pairwise.filter _ hsor
        rw [hf] at hsf
        exact List.rel_of_sorted_cons hsf i hrest

/-- C3: for an intersection list built by `new` or by `+`, `hit` returns
`None` exactly when no candidate has `t > 0`, and otherwise the candidate
with the minimal strictly positive `t`; it never returns one with `t ≤ 0`. -/
theorem hit_returns_minimal_positive :
    (∀ xs : List Intersection,
      ((IntersectionList.new xs).hit = none ↔ ∀ i ∈ xs, ¬ 0 < i.t) ∧
      (∀ h, (IntersectionList.new xs).hit = some h →
        0 < h.t ∧ h ∈ xs ∧ ∀ i ∈ xs, 0 < i.t → h.t ≤ i.t)) ∧
    (∀ A B : IntersectionList,
      ((A + B).hit = none ↔ ∀ i ∈ A.intersections ++ B.intersections, ¬ 0 < i.t) ∧
      (∀ h, (A + B).hit = some h →
        0 < h.t ∧ h ∈ A.intersections ++ B.intersections ∧
          ∀ i ∈ A.intersections ++ B.intersections, 0 < i.t → h.t ≤ i.t)) :=
  ⟨fun xs => hit_of_sorted xs, fun A B => hit_of_sorted (A.intersections ++ B.intersections)⟩

/-- Witness for C3 on the repository's own `hit` example (t values 5, 7,
-3, 2): the hit is the intersection at t = 2, which is positive and minimal
among the positive candidates. -/
theorem hit_returns_minimal_positive_witness :
    (IntersectionList.new hitSample).hit = some ⟨2, sphereA⟩ ∧
    (0 : ℝ) < 2 ∧ Intersection.mk 2 sphereA ∈ hitSample ∧
      ∀ i ∈ hitSample, 0 < i.t → (2 : ℝ) ≤ i.t := by
  have hhit : (IntersectionList.new hitSample).hit = some ⟨2, sphereA⟩ := by
    norm_num [IntersectionList.new, IntersectionList.hit, sortByT, hitSample,
      List.insertionSort, List.orderedInsert, tle, List.filter_cons, sphereA]
  have h := (hit_returns_minimal_positive.1 hitSample).2 ⟨2, sphereA⟩ hhit
  exact ⟨hhit, h.1, h.2.1, h.2.2⟩

/-! ## Cube slab-test lemmas -/

theorem Fp.max_ne_nan {a : Fp} (b : Fp) (ha : a ≠ .nan) : Fp.max a b ≠ .nan := by
  cases a <;> cases b <;> simp_all [Fp.max] <;> split <;> simp_all

theorem Fp.min_ne_nan {a : Fp} (b : Fp) (ha : a ≠ .nan) : Fp.min a b ≠ .nan := by
  cases a <;> cases b <;> simp_all [Fp.min] <;> split <;> simp_all

theorem cubeTmin_ne_nan (r : Ray) : cubeTmin r ≠ .nan :=
  Fp.max_ne_nan _ (Fp.max_ne_nan _ (Fp.max_ne_nan _ (by simp)))

theorem cubeTmax_ne_nan (r : Ray) : cubeTmax r ≠ .nan :=
  Fp.min_ne_nan _ (Fp.min_ne_nan _ (Fp.min_ne_nan _ (by simp)))

/-- C7: the cube slab test is total on every object-space ray, zero
direction components included. A division with nonzero numerator and zero
denominator produces the matching signed infinity; the overall minimum and
maximum are the max/min folds of the per-axis slab parameters and are never
NaN (so no comparison inside the final sort can panic); and the result is
empty exactly when the overall minimum exceeds the overall maximum, else the
pair (tmin, tmax). -/
theorem cube_slab_test_total_with_signed_infinities :
    (∀ a : ℝ, 0 < a → Fp.div a 0 = Fp.pinf) ∧
    (∀ a : ℝ, a < 0 → Fp.div a 0 = Fp.ninf) ∧
    (∀ r : Ray,
      (Cube.local_intersect r = none ↔ Fp.gt (cubeTmin r) (cubeTmax r) = true) ∧
      (Fp.gt (cubeTmin r) (cubeTmax r) = false →
        Cube.local_intersect r = some (cubeTmin r, cubeTmax r)) ∧
      cubeTmin r ≠ Fp.nan ∧ cubeTmax r ≠ Fp.nan) := by
  refine ⟨?_, ?_, ?_⟩
  · intro a ha; simp [Fp.div, ha]
  · intro a ha; simp [Fp.div, ha, not_lt_of_lt ha]
  · intro r
    refine ⟨?_, ?_, cubeTmin_ne_nan r, cubeTmax_ne_nan r⟩
    · unfold Cube.local_intersect
      cases hgt : Fp.gt (cubeTmin r) (cubeTmax r) <;> simp [hgt]
    · intro hgt
      unfold Cube.local_intersect
      simp [hgt]

/-- Witness for C7 on the repository's own cube test ray (origin
(5, 0.5, 0), direction (-1, 0, 0), whose y and z slab divisions are by
zero): the slab comparison succeeds and the hit parameters are t = 4 and
t = 6, and concrete divisions by zero give the signed infinities. -/
theorem cube_slab_test_witness :
    Fp.gt (cubeTmin cubeRay) (cubeTmax cubeRay) = false ∧
    Cube.local_intersect cubeRay = some (Fp.fin 4, Fp.fin 6) ∧
    Fp.div 3 0 = Fp.pinf ∧ Fp.div (-3) 0 = Fp.ninf := by
  have hmin : cubeTmin cubeRay = Fp.fin 4 := by
    norm_num [cubeTmin, check_axis, Fp.div, Fp.gt, Fp.max, cubeRay,
      Tuple.point, Tuple.vector]
  have hmax : cubeTmax cubeRay = Fp.fin 6 := by
    norm_num [cubeTmax, check_axis, Fp.div, Fp.gt, Fp.min, cubeRay,
      Tuple.point, Tuple.vector]
  have hgt : Fp.gt (cubeTmin cubeRay) (cubeTmax cubeRay) = false := by
    rw [hmin, hmax]; norm_num [Fp.gt]
  refine ⟨hgt, ?_, ?_, ?_⟩
  · rw [← hmin, ← hmax]
    exact (cube_slab_test_total_with_signed_infinities.2.2 cubeRay).2.1 hgt
  · exact cube_slab_test_total_with_signed_infinities.1 3 (by norm_num)
  · exact cube_slab_test_total_with_signed_infinities.2.1 (-3) (by norm_num)

/-- C5: evidence that the cylinder's local intersect does not return the
roots of its quadratic. On the ray with origin (0, 0, -5) and direction
(0, 0, 1) the quadratic is t² - 10 t + 24 (a = 1, b = -10, c = 24,
discriminant 4), whose roots (-b ∓ √disc) / (2a) are 4 and 6; the code
computes `-b ∓ sqrt(disc) / (2 a)` (the division applies to the square root
alone) and returns 9 and 11, and 9 is not a root of the quadratic. -/
theorem cylinder_intersect_not_quadratic_roots :
    ((Cylinder.local_intersect cylinderRay cylinderTag).intersections.map
        (fun i => i.t) = [9, 11]) ∧
    ((-(-10 : ℝ) - Real.sqrt 4) / (2 * 1) = 4) ∧
    ((-(-10 : ℝ) + Real.sqrt 4) / (2 * 1) = 6) ∧
    ((1 : ℝ) * 9 ^ 2 + (-10) * 9 + 24 ≠ 0) := by
  have h4 : Real.sqrt 4 = 2 := by
    rw [show (4 : ℝ) = 2 ^ 2 by norm_num, Real.sqrt_sq (by norm_num)]
  refine ⟨?_, by rw [h4]; norm_num, by rw [h4]; norm_num, by norm_num⟩
  norm_num [Cylinder.local_intersect, cylinderRay, cylinderTag, Tuple.point,
    Tuple.vector, EPSILON, IntersectionList.new, sortByT, List.insertionSort,
    List.orderedInsert, tle, h4]

/-! ## Container-stack walk lemmas -/

theorem n1n2Walk_found (self i : Intersection) (post : List Intersection) :
    ∀ (pre : List Intersection) (c : List Object),
      (∀ j ∈ pre, ¬ ieq j self) → ieq i self →
      n1n2Walk self (pre ++ i :: post) c =
        (refractiveLookup (pre.foldl (fun s j => updateContainers s j.object) c),
         refractiveLookup (updateContainers
           (pre.foldl (fun s j => updateContainers s j.object) c) i.object)) := by
  intro pre
  induction pre with
  | nil =>
    intro c _ hi
    simp [n1n2Walk, hi]
  | cons j pre ih =>
    intro c hpre hi
    have hj : ¬ ieq j self := hpre j (List.mem_cons_self j pre)
    simp only [List.cons_append, n1n2Walk, if_neg hj, List.foldl_cons]
    exact ih (updateContainers c j.object)
      (fun x hx => hpre x (List.mem_cons_of_mem j hx)) hi

/-- C2: the shading context resolves (n1, n2) by walking the sorted list in
order with a container stack. If the target hit is the first list entry
equal to the target (everything before it only updates the stack), then n1
is read from the stack accumulated over the prefix (1.0 when empty, else
the top entry's refractive index) and n2 from that stack updated with the
hit's own object, after which the walk stops. On the nested glass-spheres
scenario (indices 1.5, 2.0, 2.5, hits at t = 2, 2.75, 3.25, 4.75, 5.25,
6) this yields the documented (n1, n2) sequence. -/
theorem context_refractive_index_walk :
    (∀ (ray : Ray) (self i : Intersection) (xs : IntersectionList)
        (pre post : List Intersection),
      xs.intersections = pre ++ i :: post →
      (∀ j ∈ pre, ¬ ieq j self) → ieq i self →
      (self.context ray (some xs)).n1 =
        refractiveLookup (pre.foldl (fun s j => updateContainers s j.object) []) ∧
      (self.context ray (some xs)).n2 =
        refractiveLookup (updateContainers
          (pre.foldl (fun s j => updateContainers s j.object) []) i.object)) ∧
    (scenarioList.intersections.map (fun i =>
        ((i.context scenarioRay (some scenarioList)).n1,
         (i.context scenarioRay (some scenarioList)).n2)) =
      [(1, 1.5), (1.5, 2), (2, 2.5), (2.5, 2.5), (2.5, 1.5), (1.5, 1)]) := by
  constructor
  · intro ray self i xs pre post hxs hpre hi
    have hwalk := n1n2Walk_found self i post pre [] hpre hi
    constructor <;>
      simp [Intersection.context, hxs, hwalk]
  · have hlist : scenarioList.intersections =
        [⟨2, sphereA⟩, ⟨2.75, sphereB⟩, ⟨3.25, sphereC⟩,
         ⟨4.75, sphereB⟩, ⟨5.25, sphereC⟩, ⟨6, sphereA⟩] := by
      norm_num [scenarioList, IntersectionList.new, sortByT,
        List.insertionSort, List.orderedInsert, tle, sphereA, sphereB, sphereC]
    rw [hlist]
    norm_num [Intersection.context, hlist, n1n2Walk, ieq, updateContainers,
      refractiveLookup, sphereA, sphereB, sphereC, glassMaterial, Material.new]

/-- Witness for C2 at the fourth scenario hit (t = 4.75, the middle sphere):
the walk hypotheses hold concretely and the walk yields n1 and n2 from the
stack accumulated over the three earlier hits. -/
theorem context_refractive_index_walk_witness :
    ((Intersection.mk 4.75 sphereB).context scenarioRay (some scenarioList)).n1 =
      refractiveLookup
        (([⟨2, sphereA⟩, ⟨2.75, sphereB⟩, ⟨3.25, sphereC⟩] : List Intersection).foldl
          (fun s j => updateContainers s j.object) []) ∧
    ((Intersection.mk 4.75 sphereB).context scenarioRay (some scenarioList)).n2 =
      refractiveLookup
        (updateContainers
          (([⟨2, sphereA⟩, ⟨2.75, sphereB⟩, ⟨3.25, sphereC⟩] : List Intersection).foldl
            (fun s j => updateContainers s j.object) []) sphereB) := by
  exact context_refractive_index_walk.1 scenarioRay ⟨4.75, sphereB⟩
    ⟨4.75, sphereB⟩ scenarioList
    [⟨2, sphereA⟩, ⟨2.75, sphereB⟩, ⟨3.25, sphereC⟩]
    [⟨5.25, sphereC⟩, ⟨6, sphereA⟩]
    (by norm_num [scenarioList, IntersectionList.new, sortByT,
      List.insertionSort, List.orderedInsert, tle, sphereA, sphereB, sphereC])
    (by norm_num [ieq, sphereA, sphereB, sphereC])
    ⟨rfl, rfl⟩

/-! ## Evaluation lemmas for the default-world shadow scenario -/

theorem mulTuple_identity (t : Tuple) : Matrix.identityM.mulTuple t = t := by
  cases t; simp [Matrix.mulTuple, Matrix.identityM]

theorem inverse_identity : Matrix.identityM.inverse = Matrix.identityM := by
  norm_num [Matrix.inverse, Matrix.identityM, Matrix.mk.injEq]

theorem sqrt3_sq : Real.sqrt 3 * Real.sqrt 3 = 3 :=
  Real.mul_self_sqrt (by norm_num)

theorem sqrt3_pos : 0 < Real.sqrt 3 := Real.sqrt_pos.mpr (by norm_num)

theorem sqrt_four : Real.sqrt 4 = 2 := by
  rw [show (4 : ℝ) = 2 ^ 2 by norm_num, Real.sqrt_sq (by norm_num)]

theorem new_pair (x y : Intersection) (h : x.t ≤ y.t) :
    IntersectionList.new [x, y] = ⟨[x, y]⟩ := by
  simp [IntersectionList.new, sortByT, List.insertionSort, List.orderedInsert, tle, h]

theorem shadowIntersect1 :
    defaultSphere1.intersect_object
      ⟨shadowedPoint, ⟨-(1 / Real.sqrt 3), 1 / Real.sqrt 3, -(1 / Real.sqrt 3), 0⟩⟩ =
      ⟨[⟨10 * Real.sqrt 3 - 1, defaultSphere1⟩,
        ⟨10 * Real.sqrt 3 + 1, defaultSphere1⟩]⟩ := by
  have h3ne : Real.sqrt 3 ≠ 0 := ne_of_gt sqrt3_pos
  have h3sq := sqrt3_sq
  have hinv : (Real.sqrt 3)⁻¹ * (Real.sqrt 3)⁻¹ = 1/3 := by
    rw [← mul_inv, h3sq]; norm_num
  simp only [Object.intersect_object, defaultSphere1, inverse_identity,
    Ray.transformBy, mulTuple_identity, Object.localIntersect, shadowedPoint,
    Tuple.point, Tuple.sub_def, Tuple.dot]
  norm_num [hinv]
  have hq : 2 * (-((Real.sqrt 3)⁻¹ * 10) + -((Real.sqrt 3)⁻¹ * 10) + -((Real.sqrt 3)⁻¹ * 10)) *
      (2 * (-((Real.sqrt 3)⁻¹ * 10) + -((Real.sqrt 3)⁻¹ * 10) + -((Real.sqrt 3)⁻¹ * 10))) =
      1200 := by
    field_simp
    linear_combination (1600 * Real.sqrt 3 * Real.sqrt 3 - 1200) * h3sq
  have hmq : -(2 * (-((Real.sqrt 3)⁻¹ * 10) + -((Real.sqrt 3)⁻¹ * 10) + -((Real.sqrt 3)⁻¹ * 10))) =
      20 * Real.sqrt 3 := by
    field_simp
    linear_combination (-20) * h3sq
  rw [hq, if_neg (by norm_num), show (1200:ℝ) - 1196 = 4 by norm_num, sqrt_four, hmq,
    show (20 * Real.sqrt 3 - 2) / 2 = 10 * Real.sqrt 3 - 1 by ring,
    show (20 * Real.sqrt 3 + 2) / 2 = 10 * Real.sqrt 3 + 1 by ring]
  exact new_pair _ _ (by simp; linarith)

theorem inverse_halfScaling :
    (Matrix.scaling 0.5 0.5 0.5).inverse = Matrix.scaling 2 2 2 := by
  norm_num [Matrix.inverse, Matrix.scaling, Matrix.mk.injEq]

theorem shadowIntersect2 :
    defaultSphere2.intersect_object
      ⟨shadowedPoint, ⟨-(1 / Real.sqrt 3), 1 / Real.sqrt 3, -(1 / Real.sqrt 3), 0⟩⟩ =
      ⟨[⟨10 * Real.sqrt 3 - 1/2, defaultSphere2⟩,
        ⟨10 * Real.sqrt 3 + 1/2, defaultSphere2⟩]⟩ := by
  have h3ne : Real.sqrt 3 ≠ 0 := ne_of_gt sqrt3_pos
  have h3sq := sqrt3_sq
  have hinv : (Real.sqrt 3)⁻¹ * (Real.sqrt 3)⁻¹ = 1/3 := by
    rw [← mul_inv, h3sq]; norm_num
  simp only [Object.intersect_object, defaultSphere2]
  rw [inverse_halfScaling]
  simp only [Ray.transformBy, Matrix.mulTuple, Matrix.scaling,
    Object.localIntersect, shadowedPoint, Tuple.point, Tuple.sub_def, Tuple.dot]
  norm_num [hinv]
  have haexpr : 2 * (Real.sqrt 3)⁻¹ * (2 * (Real.sqrt 3)⁻¹) + 2 * (Real.sqrt 3)⁻¹ * (2 * (Real.sqrt 3)⁻¹) +
      2 * (Real.sqrt 3)⁻¹ * (2 * (Real.sqrt 3)⁻¹) = 4 := by
    field_simp
    norm_num
  have hq2 : 2 * (-(2 * (Real.sqrt 3)⁻¹ * 20) + -(2 * (Real.sqrt 3)⁻¹ * 20) + -(2 * (Real.sqrt 3)⁻¹ * 20)) *
      (2 * (-(2 * (Real.sqrt 3)⁻¹ * 20) + -(2 * (Real.sqrt 3)⁻¹ * 20) + -(2 * (Real.sqrt 3)⁻¹ * 20))) = 19200 := by
    field_simp
    linear_combination (25600 * Real.sqrt 3 * Real.sqrt 3 - 19200) * h3sq
  have hmq2 : -(2 * (-(2 * (Real.sqrt 3)⁻¹ * 20) + -(2 * (Real.sqrt 3)⁻¹ * 20) + -(2 * (Real.sqrt 3)⁻¹ * 20))) =
      80 * Real.sqrt 3 := by
    field_simp
    linear_combination (-80) * h3sq
  rw [haexpr, hq2, hmq2, if_neg (by norm_num),
    show (19200:ℝ) - 4 * 4 * 1199 = 16 by norm_num,
    show Real.sqrt 16 = 4 by
      rw [show (16:ℝ) = 4 ^ 2 by norm_num, Real.sqrt_sq (by norm_num)],
    show (80 * Real.sqrt 3 - 4) / (2 * 4) = 10 * Real.sqrt 3 - 1/2 by ring,
    show (80 * Real.sqrt 3 + 4) / (2 * 4) = 10 * Real.sqrt 3 + 1/2 by ring]
  exact new_pair _ _ (by simp; linarith)

theorem sqrt3_gt_one : 1 < Real.sqrt 3 :=
  (Real.lt_sqrt (by norm_num)).mpr (by norm_num)

theorem shadowMagnitude :
    (Tuple.mk (-20) 20 (-20) 0).magnitude = 20 * Real.sqrt 3 := by
  simp only [Tuple.magnitude]
  norm_num
  rw [show (1200 : ℝ) = 20 ^ 2 * 3 by norm_num,
    Real.sqrt_mul (by positivity), Real.sqrt_sq (by norm_num)]

theorem shadowDirection :
    (Tuple.mk (-20) 20 (-20) 0).normalize =
      ⟨-(1 / Real.sqrt 3), 1 / Real.sqrt 3, -(1 / Real.sqrt 3), 0⟩ := by
  have h3ne : Real.sqrt 3 ≠ 0 := ne_of_gt sqrt3_pos
  simp only [Tuple.normalize, shadowMagnitude, Tuple.sdiv_def, Tuple.mk.injEq]
  refine ⟨?_, ?_, ?_, by norm_num⟩ <;> field_simp <;> ring

theorem default_world_shadowed :
    World.defaultWorld.is_shadowed shadowedPoint = true := by
  have h3sq := sqrt3_sq
  have h3gt := sqrt3_gt_one
  have hv : (World.defaultWorld.lights.headI).position - shadowedPoint =
      Tuple.mk (-20) 20 (-20) 0 := by
    norm_num [World.defaultWorld, List.headI, PointLight.new, Tuple.point,
      shadowedPoint, Tuple.sub_def]
  simp only [World.is_shadowed, hv, shadowMagnitude, shadowDirection]
  have hproj : (Ray.mk shadowedPoint
        ⟨-(1 / Real.sqrt 3), 1 / Real.sqrt 3, -(1 / Real.sqrt 3), 0⟩).project_into_world
        World.defaultWorld =
      ⟨sortByT (sortByT ([] ++
          [⟨10 * Real.sqrt 3 - 1, defaultSphere1⟩,
           ⟨10 * Real.sqrt 3 + 1, defaultSphere1⟩]) ++
        [⟨10 * Real.sqrt 3 - 1/2, defaultSphere2⟩,
         ⟨10 * Real.sqrt 3 + 1/2, defaultSphere2⟩])⟩ := by
    simp only [Ray.project_into_world, World.defaultWorld, List.map, List.foldl,
      shadowIntersect1, shadowIntersect2, IntersectionList.add_lists_def]
  rw [hproj]
  have hspec := hit_of_sorted (sortByT ([] ++
      [⟨10 * Real.sqrt 3 - 1, defaultSphere1⟩,
       ⟨10 * Real.sqrt 3 + 1, defaultSphere1⟩]) ++
    [⟨10 * Real.sqrt 3 - 1/2, defaultSphere2⟩,
     ⟨10 * Real.sqrt 3 + 1/2, defaultSphere2⟩])
  cases hhit : (IntersectionList.mk (sortByT (sortByT ([] ++
      [⟨10 * Real.sqrt 3 - 1, defaultSphere1⟩,
       ⟨10 * Real.sqrt 3 + 1, defaultSphere1⟩]) ++
    [⟨10 * Real.sqrt 3 - 1/2, defaultSphere2⟩,
     ⟨10 * Real.sqrt 3 + 1/2, defaultSphere2⟩]))).hit with
  | none =>
    exfalso
    have hall := hspec.1.mp hhit
    have hmem : (⟨10 * Real.sqrt 3 - 1, defaultSphere1⟩ : Intersection) ∈
        sortByT ([] ++
          [⟨10 * Real.sqrt 3 - 1, defaultSphere1⟩,
           ⟨10 * Real.sqrt 3 + 1, defaultSphere1⟩]) ++
        [⟨10 * Real.sqrt 3 - 1/2, defaultSphere2⟩,
         ⟨10 * Real.sqrt 3 + 1/2, defaultSphere2⟩] := by
      simp [mem_sortByT]
    exact hall _ hmem (by simp; linarith)
  | some h =>
    have hp := hspec.2 h hhit
    have hmem4 := hp.2.1
    simp only [List.mem_append, mem_sortByT, List.mem_cons, List.mem_singleton,
      List.nil_append, List.not_mem_nil, or_false, false_or] at hmem4
    have hmin := hp.2.2 ⟨10 * Real.sqrt 3 - 1, defaultSphere1⟩
      (by simp [mem_sortByT]) (by simp; linarith)
    have hht : h.t = 10 * Real.sqrt 3 - 1 := by
      rcases hmem4 with (rfl | rfl) | (rfl | rfl) <;> simp at hmin ⊢ <;> linarith
    simp [hhit, hht]
    linarith

theorem sqrt2_sq : Real.sqrt 2 * Real.sqrt 2 = 2 :=
  Real.mul_self_sqrt (by norm_num)

theorem sqrt2_pos : 0 < Real.sqrt 2 := Real.sqrt_pos.mpr (by norm_num)

theorem litMagnitude :
    (Tuple.mk (-10) 0 (-10) 0).magnitude = 10 * Real.sqrt 2 := by
  simp only [Tuple.magnitude]
  norm_num
  rw [show (200 : ℝ) = 10 ^ 2 * 2 by norm_num,
    Real.sqrt_mul (by positivity), Real.sqrt_sq (by norm_num)]

theorem litDirection :
    (Tuple.mk (-10) 0 (-10) 0).normalize =
      ⟨-(1 / Real.sqrt 2), 0, -(1 / Real.sqrt 2), 0⟩ := by
  have h2ne : Real.sqrt 2 ≠ 0 := ne_of_gt sqrt2_pos
  simp only [Tuple.normalize, litMagnitude, Tuple.sdiv_def, Tuple.mk.injEq]
  refine ⟨?_, by norm_num, ?_, by norm_num⟩ <;> field_simp <;> ring

theorem litIntersect1 :
    defaultSphere1.intersect_object
      ⟨litPoint, ⟨-(1 / Real.sqrt 2), 0, -(1 / Real.sqrt 2), 0⟩⟩ = ⟨[]⟩ := by
  have h2ne : Real.sqrt 2 ≠ 0 := ne_of_gt sqrt2_pos
  have hinv : (Real.sqrt 2)⁻¹ * (Real.sqrt 2)⁻¹ = 1/2 := by
    rw [← mul_inv, sqrt2_sq]; norm_num
  simp only [Object.intersect_object, defaultSphere1, inverse_identity,
    Ray.transformBy, mulTuple_identity, Object.localIntersect, litPoint,
    Tuple.point, Tuple.sub_def, Tuple.dot]
  norm_num [hinv, IntersectionList.new, sortByT, List.insertionSort]

theorem litIntersect2 :
    defaultSphere2.intersect_object
      ⟨litPoint, ⟨-(1 / Real.sqrt 2), 0, -(1 / Real.sqrt 2), 0⟩⟩ = ⟨[]⟩ := by
  have h2ne : Real.sqrt 2 ≠ 0 := ne_of_gt sqrt2_pos
  have hinv : (Real.sqrt 2)⁻¹ * (Real.sqrt 2)⁻¹ = 1/2 := by
    rw [← mul_inv, sqrt2_sq]; norm_num
  simp only [Object.intersect_object, defaultSphere2]
  rw [inverse_halfScaling]
  simp only [Ray.transformBy, Matrix.mulTuple, Matrix.scaling,
    Object.localIntersect, litPoint, Tuple.point, Tuple.sub_def, Tuple.dot]
  norm_num [hinv, IntersectionList.new, sortByT, List.insertionSort]

theorem default_world_lit :
    World.defaultWorld.is_shadowed litPoint = false := by
  have hv : (World.defaultWorld.lights.headI).position - litPoint =
      Tuple.mk (-10) 0 (-10) 0 := by
    norm_num [World.defaultWorld, List.headI, PointLight.new, Tuple.point,
      litPoint, Tuple.sub_def]
  simp only [World.is_shadowed, hv, litMagnitude, litDirection]
  have hproj : (Ray.mk litPoint
        ⟨-(1 / Real.sqrt 2), 0, -(1 / Real.sqrt 2), 0⟩).project_into_world
        World.defaultWorld = ⟨[]⟩ := by
    simp only [Ray.project_into_world, World.defaultWorld, List.map,
      List.foldl, litIntersect1, litIntersect2, IntersectionList.add_lists_def,
      List.nil_append, List.append_nil]
    simp [sortByT, List.insertionSort]
  rw [hproj]
  simp [IntersectionList.hit]

/-- C8: for a world with exactly one point light, `is_shadowed` returns true
exactly when the ray cast from the point toward the light has a nearest
positive hit strictly closer than the light; with no hit, or a hit at or
beyond the light's distance, it returns false. In the default world the
point (10, -10, 10) is shadowed and (0, 10, 0) is not. -/
theorem is_shadowed_nearest_hit_before_light :
    (∀ (w : World) (p : Tuple) (light : PointLight), w.lights = [light] →
      (w.is_shadowed p = true ↔
        ∃ h, ((Ray.mk p ((light.position - p).normalize)).project_into_world w).hit =
            some h ∧
          h.t < (light.position - p).magnitude)) ∧
    World.defaultWorld.is_shadowed shadowedPoint = true ∧
    World.defaultWorld.is_shadowed litPoint = false := by
  refine ⟨?_, default_world_shadowed, default_world_lit⟩
  intro w p light hl
  simp only [World.is_shadowed, hl, List.headI]
  cases hhit : ((Ray.mk p ((light.position - p).normalize)).project_into_world w).hit with
  | none => simp [hhit]
  | some h => simp [hhit]

/-- Witness for C8: the default world has exactly one light, and the
characterisation applies to it at the shadowed scenario point. -/
theorem is_shadowed_nearest_hit_before_light_witness :
    World.defaultWorld.lights =
      [PointLight.new (Tuple.point (-10) 10 (-10)) ⟨1, 1, 1⟩] ∧
    (World.defaultWorld.is_shadowed shadowedPoint = true ↔
      ∃ h, ((Ray.mk shadowedPoint
            (((PointLight.new (Tuple.point (-10) 10 (-10)) ⟨1, 1, 1⟩).position -
              shadowedPoint).normalize)).project_into_world World.defaultWorld).hit =
          some h ∧
        h.t < ((PointLight.new (Tuple.point (-10) 10 (-10)) ⟨1, 1, 1⟩).position -
          shadowedPoint).magnitude) :=
  ⟨rfl, is_shadowed_nearest_hit_before_light.1 World.defaultWorld shadowedPoint _ rfl⟩

end RayTracer

end
